import Mathlib

/-!
Shallow embedding of `src/lib/ace/incremental_search.js` (the `IncrementalSearch`
controller of the ace editor fork), together with theorems settling the frozen
claims about it.

Modelling conventions:
* A buffer position `{row, column}` is `Pos`.
* `Range` embeds ace's `Range` as an ordered pair of positions; the JS field
  `end` is spelled `stop` here (`end` is a Lean keyword).
* The editing surface (the `editor` object) is reduced to the observables the
  controller reads or writes: cursor, the reported selection-emptiness, the
  emacs-mark flag, the current highlight decoration, the number of copies of the
  controller's keyboard handler on the input-handler stack, a redraw counter for
  `renderer.updateBackMarkers()`, and a counter of `clearSelection()` calls.
  The handler stack and `clearSelection` live in files outside `src/`
  (`keybinding.js`, `selection.js`); they are modelled from the spec's
  EditingSurface contract: `pushInputOverlay`/`popInputOverlay` are a LIFO
  stack (here: the count of this controller's overlay entries), and
  `clearSelection()` makes the reported selection empty.
* The controller instance state (`this.$editor`, `this.$startPos`,
  `this.$currentPos`, `this.$options.needle`, `this.$options.backwards`,
  `this.$prevNeedle`) is one record `ISearch` that also carries the (single)
  editor's observable state and the last emitted status message.
  `hasEditor` models whether `this.$editor` has been assigned; the other
  fields of a freshly constructed controller are JS `undefined`, modelled by
  placeholder defaults that the code never reads while `hasEditor = false`
  (every read sits behind the `if (!this.$editor) return null` guard or after
  `activate`).  `this.$prevNeedle || ''` makes `undefined` and `""`
  observationally equal, so `prevNeedle` is a plain `String`.
* `Search.prototype.find` (file `search.js`, outside `src/`) is the opaque
  MatchFinder of the spec: a parameter `find : FindFun` mapping the needle,
  the direction flag and the start position (`$options.start = $currentPos`)
  to `some` match range or `none`; the constant options `wrap = false`,
  `skipCurrent = false` and the constant buffer text are baked into it.
  `session.highlight(options.re)` stores the pattern compiled from the
  needle; it is modelled as `highlight := some needle`.
* A JS `TypeError` from dereferencing an undefined `this.$editor` is
  `JsResult.thrown`; the partially mutated state at a throw is unobservable
  in this development and is not carried.
* JS strings are modelled at character granularity;
  `needle.substring(0, needle.length - 1)` is `dropLastChar`.
-/

namespace IncSearch

/-- A buffer position `{row, column}`. -/
structure Pos where
  row : Nat
  column : Nat
deriving DecidableEq

/-- Embeds ace's `Range`; `stop` is the JS field `end`.
`Range.fromPoints(a, b)` is the anonymous constructor. -/
structure Range where
  start : Pos
  stop : Pos
deriving DecidableEq

/-- The observables of the editing surface that the controller touches. -/
structure EditorState where
  /-- `editor.getCursorPosition()` / `editor.moveCursorToPosition(p)`. -/
  cursor : Pos
  /-- The value `editor.selection.isEmpty()` reports. -/
  selEmpty : Bool
  /-- Truthiness of `editor.session.$emacsMark`. -/
  emacsMark : Bool
  /-- Argument of the last `session.highlight(_)` call: `none` for `null`,
  `some needle` for the pattern compiled from `needle`. -/
  highlight : Option String
  /-- Number of copies of this controller's keyboard handler on the
  input-handler stack (spec-modelled LIFO push/pop). -/
  kbdHandlers : Nat
  /-- Count of `renderer.updateBackMarkers()` calls (forced redraws). -/
  redraws : Nat
  /-- Count of `editor.clearSelection()` calls. -/
  clearCalls : Nat
deriving DecidableEq

/-- The controller state: the fields `IncrementalSearch` keeps on `this`,
plus the editor observables and the last emitted status message. -/
structure ISearch where
  /-- Whether `this.$editor` has been assigned (truthy). -/
  hasEditor : Bool
  /-- `this.$startPos`. -/
  startPos : Pos
  /-- `this.$currentPos` — the anchor the next search starts from. -/
  currentPos : Pos
  /-- `this.$options.needle` — the stored query. -/
  needle : String
  /-- `this.$options.backwards`. -/
  backwards : Bool
  /-- `this.$prevNeedle` (JS `undefined` modelled as `""`). -/
  prevNeedle : String
  /-- Argument of the last `this.message(_)` call. -/
  lastMessage : String
  /-- The editing surface's observable state. -/
  ed : EditorState
deriving DecidableEq

/-- Result of an operation that can raise a JS `TypeError`. -/
inductive JsResult (α : Type) where
  | ok : α → JsResult α
  | thrown : JsResult α
deriving DecidableEq

/-- The MatchFinder (`Search.prototype.find` via `this.find(session)`):
needle, `backwards`, start position (`$options.start`) to an optional match.
`wrap = false`, `skipCurrent = false` and the buffer are fixed inside it. -/
def FindFun : Type := String → Bool → Pos → Option Range

/-- A fresh controller attached to surface `ed` before `activate`:
`this.$editor` is unset, the other `this` fields are JS `undefined`
(placeholders, never read while `hasEditor = false`). -/
def ISearch.init (ed : EditorState) : ISearch :=
  { hasEditor := false, startPos := ⟨0, 0⟩, currentPos := ⟨0, 0⟩,
    needle := "", backwards := false, prevNeedle := "", lastMessage := "",
    ed := ed }

/-- Embeds `needle.substring(0, needle.length - 1)`: all characters but the
last one. -/
def dropLastChar (s : String) : String :=
  String.mk s.data.dropLast

/-- Embeds `this.message(msg)`: record the emitted status text (the JS code
writes it to `editor.cmdLine` when present, else to the console log; either
way `msg` is the emitted text). -/
def message (s : ISearch) (msg : String) : ISearch :=
  { s with lastMessage := msg }

/-- Embeds `this.selectionFix(editor)`:
`if (editor.selection.isEmpty() && !editor.session.$emacsMark)
editor.clearSelection();`. -/
def selectionFix (s : ISearch) : ISearch :=
  if s.ed.selEmpty = true ∧ s.ed.emacsMark = false then
    { s with ed := { s.ed with selEmpty := true,
                               clearCalls := s.ed.clearCalls + 1 } }
  else s

/-- Embeds the body of `this.cancelSearch(reset)` on the path where
`this.$editor` is set (every call site in the source either guards on
`this.$editor` or would throw): stash the needle into `$prevNeedle`, clear
the needle, on `reset` move cursor and `$currentPos` back to `$startPos`,
clear the highlight, force a redraw, and return the empty range at
`$currentPos`. -/
def cancelSearchAux (s : ISearch) (reset : Bool) : Range × ISearch :=
  let s1 := { s with prevNeedle := s.needle, needle := "" }
  let s2 := if reset then
      { s1 with currentPos := s1.startPos,
                ed := { s1.ed with cursor := s1.startPos } }
    else s1
  let s3 := { s2 with ed := { s2.ed with highlight := none,
                                         redraws := s2.ed.redraws + 1 } }
  (⟨s3.currentPos, s3.currentPos⟩, s3)

/-- Embeds `this.cancelSearch(reset)` called from outside: with
`this.$editor` unset, `e.session.highlight(null)` (and `e.moveCursorToPosition`
when `reset`) dereferences `undefined` and throws. -/
def cancelSearch (s : ISearch) (reset : Bool) : JsResult (Range × ISearch) :=
  if s.hasEditor then JsResult.ok (cancelSearchAux s reset) else JsResult.thrown

/-- Embeds `this.highlightAndFindWithNeedle(moveToNext, needleUpdateFunc)`.
The update function receives `this` (to read `$prevNeedle`) and the current
needle (`options.needle || ''`); its result (`|| ''`) becomes the stored
needle.  An empty needle takes the `cancelSearch(true)` early return; else
the finder runs from `$currentPos`, a backwards match is endpoint-swapped,
the cursor moves to the (post-swap) match end, `moveToNext` advances the
anchor there, the compiled pattern is highlighted and a redraw forced; the
status message is emitted last and the (post-swap) match is returned. -/
def highlightAndFindWithNeedle (find : FindFun) (moveToNext : Bool)
    (needleUpdateFunc : Option (ISearch → String → String)) (s : ISearch) :
    Option Range × ISearch :=
  if s.hasEditor then
    let s1 := match needleUpdateFunc with
      | some f => { s with needle := f s s.needle }
      | none => s
    if s1.needle.length = 0 then
      let c := cancelSearchAux s1 true
      (some c.1, c.2)
    else
      let found := (find s1.needle s1.backwards s1.currentPos).map
        (fun m => if s1.backwards then Range.mk m.stop m.start else m)
      let s2 := match found with
        | some m =>
          let sa := { s1 with ed := { s1.ed with cursor := m.stop } }
          let sb := if moveToNext then { sa with currentPos := m.stop } else sa
          { sb with ed := { sb.ed with highlight := some s1.needle,
                                       redraws := sb.ed.redraws + 1 } }
        | none => s1
      let msg := (if s1.backwards then "reverse-" else "") ++ "isearch: "
        ++ s1.needle ++ (if found.isNone then " (not found)" else "")
      (found, message s2 msg)
  else (none, s)

/-- Embeds `this.activate(editor, backwards)`: bind the editor, capture
`$startPos = $currentPos = cursor`, clear the needle, set the direction,
push the keyboard handler, run `selectionFix`, emit the initial status. -/
def activate (s : ISearch) (backwards : Bool) : ISearch :=
  let s1 := { s with hasEditor := true,
                     startPos := s.ed.cursor, currentPos := s.ed.cursor,
                     needle := "", backwards := backwards }
  let s2 := { s1 with ed := { s1.ed with kbdHandlers := s1.ed.kbdHandlers + 1 } }
  let s3 := selectionFix s2
  message s3 ((if s3.backwards then "reverse-" else "") ++ "isearch: "
    ++ s3.needle)

/-- Embeds `this.deactivate(reset)`: `cancelSearch(reset)` (which throws when
`this.$editor` is unset), pop the keyboard handler, clear the status text.
Note: `this.$editor` is left assigned. -/
def deactivate (s : ISearch) (reset : Bool) : JsResult ISearch :=
  if s.hasEditor then
    let s1 := (cancelSearchAux s reset).2
    let s2 := { s1 with ed := { s1.ed with kbdHandlers := s1.ed.kbdHandlers - 1 } }
    JsResult.ok (message s2 "")
  else JsResult.thrown

/-- Embeds `this.addChar(c)`: append `c` to the needle, re-search without
advancing the anchor. -/
def addChar (find : FindFun) (c : Char) (s : ISearch) : Option Range × ISearch :=
  highlightAndFindWithNeedle find false
    (some fun _ needle => needle.push c) s

/-- Embeds `this.removeChar(c)`: drop the needle's last character (keep an
empty needle), re-search without advancing the anchor. -/
def removeChar (find : FindFun) (s : ISearch) : Option Range × ISearch :=
  highlightAndFindWithNeedle find false
    (some fun _ needle =>
      if needle.length > 0 then dropLastChar needle else needle) s

/-- The options object of `this.next(options)`; absent fields are falsy. -/
structure NextOptions where
  backwards : Bool := false
  useCurrentOrPrevSearch : Bool := false
deriving DecidableEq

/-- The needle-update closure `next` passes to the search helper: substitute
`this.$prevNeedle || ''` for an empty needle when
`options.useCurrentOrPrevSearch` is set, else keep the needle. -/
def nextUpdate (opts : NextOptions) : ISearch → String → String :=
  fun st needle =>
    if opts.useCurrentOrPrevSearch = true ∧ needle.length = 0 then
      st.prevNeedle
    else needle

/-- Embeds `this.next(options)`: set the direction, re-anchor `$currentPos`
at the current cursor (this dereference throws when `this.$editor` is
unset), then re-search with `moveToNext = true` and the `nextUpdate`
closure. -/
def next (find : FindFun) (opts : NextOptions) (s : ISearch) :
    JsResult (Option Range × ISearch) :=
  if s.hasEditor then
    let s1 := { s with backwards := opts.backwards, currentPos := s.ed.cursor }
    JsResult.ok (highlightAndFindWithNeedle find true (some (nextUpdate opts)) s1)
  else JsResult.thrown

/-- The working query `next` hands to the search: the stored needle, or the
previous needle when the stored one is empty and `useCurrentOrPrevSearch`
is set. -/
def workingQuery (opts : NextOptions) (s : ISearch) : String :=
  if opts.useCurrentOrPrevSearch = true ∧ s.needle.length = 0 then
    s.prevNeedle
  else s.needle

/-! ### Concrete fixtures (used by witnesses and counterexamples) -/

/-- A surface with the cursor at the origin, an empty selection, no mark
mode, no highlight and an empty input-handler stack. -/
def edW : EditorState :=
  { cursor := ⟨0, 0⟩, selEmpty := true, emacsMark := false, highlight := none,
    kbdHandlers := 0, redraws := 0, clearCalls := 0 }

/-- An active session on a surface like `edW` (one overlay installed) with
needle `"a"` anchored at the origin. -/
def sW : ISearch :=
  { hasEditor := true, startPos := ⟨0, 0⟩, currentPos := ⟨0, 0⟩,
    needle := "a", backwards := false, prevNeedle := "", lastMessage := "",
    ed := { edW with kbdHandlers := 1 } }

/-- Like `sW` but with the two-character needle `"ab"`. -/
def sW2 : ISearch := { sW with needle := "ab" }

/-- A finder that never matches (e.g. an empty buffer). -/
def findNone : FindFun := fun _ _ _ => none

/-- A finder that always reports the match from `(0,3)` to `(0,5)`. -/
def findHit : FindFun := fun _ _ _ => some ⟨⟨0, 3⟩, ⟨0, 5⟩⟩

/-- An active session whose cursor has moved to `(0,5)` while the anchor
stayed at the origin — the situation right after a successful `addChar`. -/
def sCursorMoved : ISearch := { sW with ed := { sW.ed with cursor := ⟨0, 5⟩ } }

/-- An active session with an empty needle and previous needle `"ab"`. -/
def sPrev : ISearch := { sW with needle := "", prevNeedle := "ab" }

/-- A surface reporting a non-empty selection, no mark mode active. -/
def edSel : EditorState := { edW with selEmpty := false }

/-- The controller right after a first activation on `edW` at the origin. -/
def sAct1 : ISearch := activate (ISearch.init edW) false

/-- The same live session after the surface cursor moved to `(1,2)`. -/
def sAct1Moved : ISearch :=
  { sAct1 with ed := { sAct1.ed with cursor := ⟨1, 2⟩ } }

/-! ### Path lemmas for `highlightAndFindWithNeedle` -/

/-- With no editor bound, the search helper returns `null` and changes
nothing. -/
lemma hfwn_inactive (find : FindFun) (mv : Bool)
    (f : Option (ISearch → String → String)) (s : ISearch)
    (hed : s.hasEditor = false) :
    highlightAndFindWithNeedle find mv f s = (none, s) := by
  simp [highlightAndFindWithNeedle, hed]

/-- Empty candidate needle: the helper performs `cancelSearch(true)` on the
state holding the committed candidate and returns its result; the finder is
never consulted. -/
lemma hfwn_empty (find : FindFun) (mv : Bool) (f : ISearch → String → String)
    (s : ISearch) (hed : s.hasEditor = true)
    (hlen : (f s s.needle).length = 0) :
    highlightAndFindWithNeedle find mv (some f) s =
      (some (cancelSearchAux { s with needle := f s s.needle } true).1,
        (cancelSearchAux { s with needle := f s s.needle } true).2) := by
  simp [highlightAndFindWithNeedle, hed, hlen]

/-- Non-empty candidate, no match: only the stored needle and the status
message change, and the message carries the `" (not found)"` suffix. -/
lemma hfwn_notfound (find : FindFun) (mv : Bool)
    (f : ISearch → String → String) (s : ISearch) (hed : s.hasEditor = true)
    (hlen : (f s s.needle).length ≠ 0)
    (hf : find (f s s.needle) s.backwards s.currentPos = none) :
    highlightAndFindWithNeedle find mv (some f) s =
      (none, { s with
        needle := f s s.needle,
        lastMessage := (if s.backwards then "reverse-" else "") ++ "isearch: "
          ++ f s s.needle ++ " (not found)" }) := by
  simp [highlightAndFindWithNeedle, hed, hlen, hf, message]

/-- Non-empty candidate, match `m` found: the returned range is `m` with its
endpoints swapped when searching backwards, the cursor moves to the
(post-swap) match end, `moveToNext` advances the anchor there, the compiled
pattern is highlighted, a redraw is forced, and the status message carries
no `" (not found)"` suffix. -/
lemma hfwn_found (find : FindFun) (mv : Bool)
    (f : ISearch → String → String) (s : ISearch) (m : Range)
    (hed : s.hasEditor = true) (hlen : (f s s.needle).length ≠ 0)
    (hf : find (f s s.needle) s.backwards s.currentPos = some m) :
    highlightAndFindWithNeedle find mv (some f) s =
      (some (if s.backwards then Range.mk m.stop m.start else m),
       { s with
         needle := f s s.needle,
         currentPos := if mv then
             (if s.backwards then Range.mk m.stop m.start else m).stop
           else s.currentPos,
         lastMessage := (if s.backwards then "reverse-" else "") ++ "isearch: "
           ++ f s s.needle,
         ed := { s.ed with
                 cursor :=
                   (if s.backwards then Range.mk m.stop m.start else m).stop,
                 highlight := some (f s s.needle),
                 redraws := s.ed.redraws + 1 } }) := by
  cases mv <;> simp [highlightAndFindWithNeedle, hed, hlen, hf, message]

/-- Explicit form of `cancelSearchAux`. -/
lemma cancelSearchAux_eq (s : ISearch) (reset : Bool) :
    cancelSearchAux s reset =
      (⟨if reset then s.startPos else s.currentPos,
        if reset then s.startPos else s.currentPos⟩,
       { s with
         prevNeedle := s.needle, needle := "",
         currentPos := if reset then s.startPos else s.currentPos,
         ed := { s.ed with
                 cursor := if reset then s.startPos else s.ed.cursor,
                 highlight := none,
                 redraws := s.ed.redraws + 1 } }) := by
  cases reset <;> rfl

/-- On an editor-bound session, `next` never throws: it forwards to the
search helper after setting the direction and re-anchoring at the cursor. -/
lemma next_eq (find : FindFun) (opts : NextOptions) (s : ISearch)
    (hed : s.hasEditor = true) :
    next find opts s = JsResult.ok (highlightAndFindWithNeedle find true
      (some (nextUpdate opts))
      { s with backwards := opts.backwards, currentPos := s.ed.cursor }) := by
  simp [next, hed]

/-- The candidate needle `next`'s update closure produces on the re-anchored
state is `workingQuery`. -/
lemma next_update_eq (opts : NextOptions) (s : ISearch) :
    nextUpdate opts
      { s with backwards := opts.backwards, currentPos := s.ed.cursor }
      ({ s with backwards := opts.backwards, currentPos := s.ed.cursor }).needle
      = workingQuery opts s := rfl

/-- `next` with `useCurrentOrPrevSearch` on a session whose stored and
previous needles are both empty takes the reset path: it returns the
zero-length range at `startPosition` and restores cursor and anchor
there. -/
lemma next_reuse_empty (find : FindFun) (bw : Bool) (t : ISearch)
    (hed : t.hasEditor = true) (hn : t.needle = "") (hp : t.prevNeedle = "") :
    ∀ r s2,
      next find { backwards := bw, useCurrentOrPrevSearch := true } t
        = JsResult.ok (r, s2) →
      r = some ⟨t.startPos, t.startPos⟩ ∧ s2.needle = "" ∧
      s2.currentPos = t.startPos ∧ s2.ed.cursor = t.startPos := by
  intro r s2 h
  rw [next_eq find _ t hed] at h
  rw [hfwn_empty find true
      (nextUpdate { backwards := bw, useCurrentOrPrevSearch := true })
      { t with backwards := bw, currentPos := t.ed.cursor }
      hed (by rw [next_update_eq]; simp [workingQuery, hn, hp]),
    cancelSearchAux_eq] at h
  simp only [JsResult.ok.injEq, Prod.mk.injEq] at h
  obtain ⟨hr, hs2⟩ := h
  refine ⟨by rw [← hr]; simp, ?_⟩
  simp [← hs2]

/-! ### Claims -/

/-- C1: on an active session, for every candidate query on which the
MatchFinder reports no match, `addChar` and `removeChar` leave the surface
cursor, the anchor and the existing highlight (indeed every state component
other than the stored query and the status message) exactly as they were,
return nothing, and emit a status message ending in `" (not found)"`. -/
theorem C1_failed_search_frame (find : FindFun) (s : ISearch)
    (hed : s.hasEditor = true) :
    (∀ c : Char, find (s.needle.push c) s.backwards s.currentPos = none →
      addChar find c s =
        (none, { s with
          needle := s.needle.push c,
          lastMessage := (if s.backwards then "reverse-" else "")
            ++ "isearch: " ++ s.needle.push c ++ " (not found)" }) ∧
      ∃ p, (addChar find c s).2.lastMessage = p ++ " (not found)") ∧
    (s.needle.length ≠ 0 → (dropLastChar s.needle).length ≠ 0 →
      find (dropLastChar s.needle) s.backwards s.currentPos = none →
      removeChar find s =
        (none, { s with
          needle := dropLastChar s.needle,
          lastMessage := (if s.backwards then "reverse-" else "")
            ++ "isearch: " ++ dropLastChar s.needle ++ " (not found)" }) ∧
      ∃ p, (removeChar find s).2.lastMessage = p ++ " (not found)") := by
  constructor
  · intro c hf
    have h1 := hfwn_notfound find false (fun _ needle => needle.push c) s hed
      (by simp) hf
    exact ⟨h1, _, by rw [show addChar find c s = _ from h1]⟩
  · intro hq hlen hf
    have hpos : s.needle.length > 0 := Nat.pos_of_ne_zero hq
    have h1 := hfwn_notfound find false
      (fun _ needle => if needle.length > 0 then dropLastChar needle else needle)
      s hed (by simpa [hpos] using hlen) (by simpa [hpos] using hf)
    simp only [hpos, if_pos] at h1
    exact ⟨h1, _, by rw [show removeChar find s = _ from h1]⟩

/-- C1 witness: on the concrete session `sW` (needle `"a"`) and `sW2`
(needle `"ab"`) with a never-matching finder, `addChar 'x'` and
`removeChar` only change the needle and the status message. -/
theorem C1_failed_search_frame_witness :
    (addChar findNone 'x' sW =
      (none, { sW with
        needle := sW.needle.push 'x',
        lastMessage := (if sW.backwards then "reverse-" else "")
          ++ "isearch: " ++ sW.needle.push 'x' ++ " (not found)" }) ∧
      ∃ p, (addChar findNone 'x' sW).2.lastMessage = p ++ " (not found)") ∧
    (removeChar findNone sW2 =
      (none, { sW2 with
        needle := dropLastChar sW2.needle,
        lastMessage := (if sW2.backwards then "reverse-" else "")
          ++ "isearch: " ++ dropLastChar sW2.needle ++ " (not found)" }) ∧
      ∃ p, (removeChar findNone sW2).2.lastMessage = p ++ " (not found)") :=
  ⟨(C1_failed_search_frame findNone sW rfl).1 'x' rfl,
   (C1_failed_search_frame findNone sW2 rfl).2 (by decide) (by decide) rfl⟩

/-- C2 counterexample: on the active session `sCursorMoved` (anchor at the
origin, cursor at `(0,5)`), a `next` call whose search finds nothing moves
the anchor to `(0,5)` even though `next` did not succeed (it returned
nothing, the needle `"a"` was kept, and no reset to `startPosition`
happened) — refuting "the anchor moves only when `next` succeeds or when
`cancelSearch` runs with `reset = true`". -/
theorem C2_anchor_counterexample :
    next findNone {} sCursorMoved =
      JsResult.ok (none, { sCursorMoved with
        currentPos := ⟨0, 5⟩,
        lastMessage := "isearch: a (not found)" }) ∧
    sCursorMoved.currentPos = ⟨0, 0⟩ ∧
    sCursorMoved.startPos = ⟨0, 0⟩ ∧
    sCursorMoved.needle = "a" := by
  decide

/-- C2 amended: the anchor is unchanged by `addChar` always and by
`removeChar` whenever the candidate query is non-empty; otherwise the anchor
changes only through `next` — which re-anchors it at the surface cursor and,
on success, sets it to the post-swap match end (or to `startPosition` when
the working query is empty and the reset path runs) — or through
`cancelSearch` with `reset = true`, which restores it to `startPosition`. -/
theorem C2_anchor_movement (find : FindFun) (s : ISearch)
    (hed : s.hasEditor = true) :
    (∀ c, (addChar find c s).2.currentPos = s.currentPos) ∧
    ((if s.needle.length > 0 then dropLastChar s.needle else s.needle).length
        ≠ 0 →
      (removeChar find s).2.currentPos = s.currentPos) ∧
    (∀ opts r s2, next find opts s = JsResult.ok (r, s2) →
      s2.currentPos =
        if (workingQuery opts s).length = 0 then s.startPos
        else
          match r with
          | some m => m.stop
          | none => s.ed.cursor) ∧
    (∀ reset r s2, cancelSearch s reset = JsResult.ok (r, s2) →
      s2.currentPos = if reset then s.startPos else s.currentPos) := by
  refine ⟨?_, ?_, ?_, ?_⟩
  · intro c
    cases hf : find (s.needle.push c) s.backwards s.currentPos with
    | none =>
      rw [show addChar find c s = _ from
        hfwn_notfound find false (fun _ needle => needle.push c) s hed
          (by simp) hf]
    | some m =>
      rw [show addChar find c s = _ from
        hfwn_found find false (fun _ needle => needle.push c) s m hed
          (by simp) hf]
      simp
  · intro hlen
    cases hf : find (if s.needle.length > 0 then dropLastChar s.needle
        else s.needle) s.backwards s.currentPos with
    | none =>
      rw [show removeChar find s = _ from
        hfwn_notfound find false
          (fun _ needle =>
            if needle.length > 0 then dropLastChar needle else needle)
          s hed hlen hf]
    | some m =>
      rw [show removeChar find s = _ from
        hfwn_found find false
          (fun _ needle =>
            if needle.length > 0 then dropLastChar needle else needle)
          s m hed hlen hf]
      simp
  · intro opts r s2 h
    rw [next_eq find opts s hed] at h
    by_cases hwq : (workingQuery opts s).length = 0
    · rw [hfwn_empty find true (nextUpdate opts)
          { s with backwards := opts.backwards, currentPos := s.ed.cursor }
          hed (by rw [next_update_eq]; exact hwq),
        cancelSearchAux_eq] at h
      simp only [JsResult.ok.injEq, Prod.mk.injEq] at h
      obtain ⟨hr, hs2⟩ := h
      simp [← hs2, hwq]
    · cases hf : find (workingQuery opts s) opts.backwards s.ed.cursor with
      | none =>
        rw [hfwn_notfound find true (nextUpdate opts)
          { s with backwards := opts.backwards, currentPos := s.ed.cursor }
          hed (by rw [next_update_eq]; exact hwq)
          (by rw [next_update_eq]; exact hf)] at h
        simp only [JsResult.ok.injEq, Prod.mk.injEq] at h
        obtain ⟨hr, hs2⟩ := h
        simp [← hs2, ← hr, hwq]
      | some m =>
        rw [hfwn_found find true (nextUpdate opts)
          { s with backwards := opts.backwards, currentPos := s.ed.cursor }
          m hed (by rw [next_update_eq]; exact hwq)
          (by rw [next_update_eq]; exact hf)] at h
        simp only [JsResult.ok.injEq, Prod.mk.injEq] at h
        obtain ⟨hr, hs2⟩ := h
        simp [← hs2, ← hr, hwq]
  · intro reset r s2 h
    rw [show cancelSearch s reset = _ from if_pos hed,
      cancelSearchAux_eq] at h
    simp only [JsResult.ok.injEq, Prod.mk.injEq] at h
    obtain ⟨hr, hs2⟩ := h
    simp [← hs2]

/-- C2 witness: concrete instances of the amended anchor rules on `sW2`
(needle `"ab"`): `addChar`/`removeChar` keep the anchor, a successful `next`
moves it to the match end `(0,5)`, and `cancelSearch(true)` restores it. -/
theorem C2_anchor_movement_witness :
    (addChar findHit 'x' sW2).2.currentPos = sW2.currentPos ∧
    (removeChar findHit sW2).2.currentPos = sW2.currentPos ∧
    (∀ r s2, next findHit {} sW2 = JsResult.ok (r, s2) →
      s2.currentPos =
        if (workingQuery {} sW2).length = 0 then sW2.startPos
        else
          match r with
          | some m => m.stop
          | none => sW2.ed.cursor) ∧
    (∀ r s2, cancelSearch sW2 true = JsResult.ok (r, s2) →
      s2.currentPos = if true then sW2.startPos else sW2.currentPos) := by
  have h := C2_anchor_movement findHit sW2 rfl
  exact ⟨h.1 'x', h.2.1 (by decide), h.2.2.1 {}, h.2.2.2 true⟩

/-- C3: on an active session, whenever the candidate query produced by the
query transform is empty, the search helper performs `cancelSearch` with
`reset = true` — restoring cursor and anchor to `startPosition` — and
returns its zero-length range, independently of the MatchFinder (which is
never consulted). -/
theorem C3_empty_query_reset (find : FindFun) (mv : Bool)
    (f : ISearch → String → String) (s : ISearch)
    (hed : s.hasEditor = true) (hlen : (f s s.needle).length = 0) :
    highlightAndFindWithNeedle find mv (some f) s =
      (some (cancelSearchAux { s with needle := f s s.needle } true).1,
        (cancelSearchAux { s with needle := f s s.needle } true).2) ∧
    (highlightAndFindWithNeedle find mv (some f) s).2.ed.cursor
      = s.startPos ∧
    (highlightAndFindWithNeedle find mv (some f) s).2.currentPos
      = s.startPos ∧
    (highlightAndFindWithNeedle find mv (some f) s).1
      = some ⟨s.startPos, s.startPos⟩ ∧
    (∀ find2 : FindFun, highlightAndFindWithNeedle find mv (some f) s
      = highlightAndFindWithNeedle find2 mv (some f) s) := by
  have h := hfwn_empty find mv f s hed hlen
  refine ⟨h, ?_, ?_, ?_, fun find2 => ?_⟩
  · rw [h, cancelSearchAux_eq]; simp
  · rw [h, cancelSearchAux_eq]; simp
  · rw [h, cancelSearchAux_eq]; simp
  · rw [h, hfwn_empty find2 mv f s hed hlen]

/-- C3 witness: `removeChar` on the concrete session `sW` (one-character
needle `"a"`) takes the reset path: cursor and anchor return to
`startPosition` and the zero-length range there is returned, for any
finder. -/
theorem C3_empty_query_reset_witness :
    (removeChar findHit sW).2.ed.cursor = sW.startPos ∧
    (removeChar findHit sW).2.currentPos = sW.startPos ∧
    (removeChar findHit sW).1 = some ⟨sW.startPos, sW.startPos⟩ ∧
    removeChar findHit sW = removeChar findNone sW := by
  have h := C3_empty_query_reset findHit false
    (fun _ needle => if needle.length > 0 then dropLastChar needle else needle)
    sW rfl (by decide)
  exact ⟨h.2.1, h.2.2.1, h.2.2.2.1, h.2.2.2.2 findNone⟩

/-- C4 counterexample: on a freshly constructed controller (no editor bound,
so no session was ever active), `next` dereferences `this.$editor` before
the guard and raises a TypeError — refuting "every mutating call while no
session is active is a no-op that never raises". -/
theorem C4_next_throws_counterexample :
    next findNone {} (ISearch.init edW) = JsResult.thrown ∧
    (ISearch.init edW).hasEditor = false := by
  decide

/-- C4 amended: before any activation (editor reference unset), `addChar`
and `removeChar` are no-ops returning nothing, but `next` raises a
TypeError; and since `deactivate` leaves the editor reference assigned,
calls made after `deactivate` are not guarded — they behave as on an
editor-bound session. -/
theorem C4_inactive_guard (find : FindFun) (s : ISearch)
    (hed : s.hasEditor = false) :
    (∀ c, addChar find c s = (none, s)) ∧
    removeChar find s = (none, s) ∧
    (∀ opts, next find opts s = JsResult.thrown) ∧
    (∀ t : ISearch, ∀ reset s2, deactivate t reset = JsResult.ok s2 →
      s2.hasEditor = t.hasEditor) := by
  refine ⟨fun c => hfwn_inactive find false _ s hed,
    hfwn_inactive find false _ s hed, fun opts => by simp [next, hed], ?_⟩
  intro t reset s2 h
  by_cases ht : t.hasEditor
  · rw [show deactivate t reset = _ from if_pos ht] at h
    obtain rfl := (JsResult.ok.injEq _ _).mp h
    rw [cancelSearchAux_eq]
    simp [message, ht]
  · rw [show deactivate t reset = _ from if_neg ht] at h
    exact absurd h (by simp)

/-- C4 witness: on the concrete fresh controller, `addChar` and `removeChar`
are no-ops returning nothing, `next` throws, and a `deactivate` of the
concrete active session `sW` leaves the editor reference assigned. -/
theorem C4_inactive_guard_witness :
    addChar findNone 'x' (ISearch.init edW) = (none, ISearch.init edW) ∧
    removeChar findNone (ISearch.init edW) = (none, ISearch.init edW) ∧
    next findNone {} (ISearch.init edW) = JsResult.thrown ∧
    (∀ s2, deactivate sW true = JsResult.ok s2 →
      s2.hasEditor = sW.hasEditor) := by
  have h := C4_inactive_guard findNone (ISearch.init edW) rfl
  exact ⟨h.1 'x', h.2.1, h.2.2.1 {}, fun s2 => h.2.2.2 sW true s2⟩

/-- C5: on an active session, when the candidate query is non-empty and the
MatchFinder reports match `m`, the operation returns `m` with its two
endpoints swapped exactly when the direction is backwards, and moves the
surface cursor to the post-swap match end (for a backwards search the
original match start); for a forward search no swap occurs. -/
theorem C5_backwards_swap (find : FindFun) (mv : Bool)
    (f : ISearch → String → String) (s : ISearch) (m : Range)
    (hed : s.hasEditor = true) (hlen : (f s s.needle).length ≠ 0)
    (hf : find (f s s.needle) s.backwards s.currentPos = some m) :
    (highlightAndFindWithNeedle find mv (some f) s).1 =
      some (if s.backwards then Range.mk m.stop m.start else m) ∧
    (highlightAndFindWithNeedle find mv (some f) s).2.ed.cursor =
      (if s.backwards then Range.mk m.stop m.start else m).stop ∧
    (s.backwards = true →
      (highlightAndFindWithNeedle find mv (some f) s).1 =
        some (Range.mk m.stop m.start) ∧
      (highlightAndFindWithNeedle find mv (some f) s).2.ed.cursor = m.start) ∧
    (s.backwards = false →
      (highlightAndFindWithNeedle find mv (some f) s).1 = some m ∧
      (highlightAndFindWithNeedle find mv (some f) s).2.ed.cursor = m.stop) := by
  rw [hfwn_found find mv f s m hed hlen hf]
  cases hb : s.backwards <;> simp [hb]

/-- C5 witness: `addChar 'x'` on the backwards session with the finder that
reports the match from `(0,3)` to `(0,5)` returns the swapped range and
parks the cursor at `(0,3)`; on the forward session no swap occurs and the
cursor lands at `(0,5)`. -/
theorem C5_backwards_swap_witness :
    ((addChar findHit 'x' { sW with backwards := true }).1 =
        some (Range.mk ⟨0, 5⟩ ⟨0, 3⟩) ∧
      (addChar findHit 'x' { sW with backwards := true }).2.ed.cursor
        = ⟨0, 3⟩) ∧
    ((addChar findHit 'x' sW).1 = some (Range.mk ⟨0, 3⟩ ⟨0, 5⟩) ∧
      (addChar findHit 'x' sW).2.ed.cursor = ⟨0, 5⟩) :=
  ⟨(C5_backwards_swap findHit false (fun _ needle => needle.push 'x')
      { sW with backwards := true } ⟨⟨0, 3⟩, ⟨0, 5⟩⟩ rfl (by decide) rfl).2.2.1
      rfl,
   (C5_backwards_swap findHit false (fun _ needle => needle.push 'x')
      sW ⟨⟨0, 3⟩, ⟨0, 5⟩⟩ rfl (by decide) rfl).2.2.2 rfl⟩

/-- C6 counterexample: on the active session `sPrev` (stored query empty,
previous query `"ab"`), `next` with `useCurrentOrPrevSearch` substitutes the
previous query and commits it: after the call the stored query is `"ab"`,
not the empty string — refuting "the substitution does not persist as the
stored query after the call". -/
theorem C6_substitution_persists_counterexample :
    sPrev.needle = "" ∧
    next findNone { backwards := false, useCurrentOrPrevSearch := true }
        sPrev =
      JsResult.ok (none, { sPrev with
        needle := "ab",
        lastMessage := "isearch: ab (not found)" }) := by
  decide

/-- C6 amended: `next(opts)` on an editor-bound session never throws;
direction becomes `opts.backwards` (false when omitted); the anchor is first
set to the surface cursor, which is where the search starts; if the stored
query is empty and `opts.useCurrentOrPrevSearch` is set, `previousQuery`
(falling back to empty) is substituted and committed as the stored query,
so a non-empty substitution persists after the call; the search runs with
`advanceAnchor = true`: on success the anchor becomes the post-swap match
end, on failure it stays at the cursor, and an empty working query takes
the reset path instead. -/
theorem C6_next_semantics (find : FindFun) (opts : NextOptions) (s : ISearch)
    (hed : s.hasEditor = true) :
    next find opts s ≠ JsResult.thrown ∧
    (∀ r s2, next find opts s = JsResult.ok (r, s2) →
      s2.backwards = opts.backwards ∧
      ((workingQuery opts s).length ≠ 0 →
        s2.needle = workingQuery opts s ∧
        r = (find (workingQuery opts s) opts.backwards s.ed.cursor).map
          (fun m => if opts.backwards then Range.mk m.stop m.start else m) ∧
        s2.currentPos =
          (match r with
          | some m => m.stop
          | none => s.ed.cursor)) ∧
      ((workingQuery opts s).length = 0 →
        s2.needle = "" ∧ s2.currentPos = s.startPos ∧
        s2.ed.cursor = s.startPos ∧
        r = some ⟨s.startPos, s.startPos⟩)) := by
  refine ⟨by simp [next, hed], ?_⟩
  intro r s2 h
  rw [next_eq find opts s hed] at h
  by_cases hwq : (workingQuery opts s).length = 0
  · rw [hfwn_empty find true (nextUpdate opts)
        { s with backwards := opts.backwards, currentPos := s.ed.cursor }
        hed (by rw [next_update_eq]; exact hwq),
      cancelSearchAux_eq] at h
    simp only [JsResult.ok.injEq, Prod.mk.injEq] at h
    obtain ⟨hr, hs2⟩ := h
    refine ⟨by simp [← hs2], fun hne => absurd hwq hne, fun _ => ?_⟩
    simp [← hs2, ← hr]
  · cases hf : find (workingQuery opts s) opts.backwards s.ed.cursor with
    | none =>
      rw [hfwn_notfound find true (nextUpdate opts)
        { s with backwards := opts.backwards, currentPos := s.ed.cursor }
        hed (by rw [next_update_eq]; exact hwq)
        (by rw [next_update_eq]; exact hf)] at h
      simp only [JsResult.ok.injEq, Prod.mk.injEq] at h
      obtain ⟨hr, hs2⟩ := h
      refine ⟨by simp [← hs2], fun _ => ?_, fun h0 => absurd h0 hwq⟩
      rw [next_update_eq] at hs2
      simp [← hs2, ← hr, hf]
    | some m =>
      rw [hfwn_found find true (nextUpdate opts)
        { s with backwards := opts.backwards, currentPos := s.ed.cursor }
        m hed (by rw [next_update_eq]; exact hwq)
        (by rw [next_update_eq]; exact hf)] at h
      simp only [JsResult.ok.injEq, Prod.mk.injEq] at h
      obtain ⟨hr, hs2⟩ := h
      refine ⟨by simp [← hs2], fun _ => ?_, fun h0 => absurd h0 hwq⟩
      rw [next_update_eq] at hs2
      simp [← hs2, ← hr, hf]

/-- C6 witness: on the concrete session `sPrev` (empty stored query,
previous query `"ab"`) with the always-matching finder, `next` with
`useCurrentOrPrevSearch` substitutes and commits `"ab"`, searches from the
cursor, and advances the anchor to the match end. -/
theorem C6_next_semantics_witness :
    next findHit { backwards := false, useCurrentOrPrevSearch := true } sPrev
      ≠ JsResult.thrown ∧
    (∀ r s2,
      next findHit { backwards := false, useCurrentOrPrevSearch := true }
          sPrev = JsResult.ok (r, s2) →
      s2.backwards = false ∧
      s2.needle =
        workingQuery { backwards := false, useCurrentOrPrevSearch := true }
          sPrev ∧
      s2.currentPos =
        (match r with
        | some m => m.stop
        | none => sPrev.ed.cursor)) := by
  have h := C6_next_semantics findHit
    { backwards := false, useCurrentOrPrevSearch := true } sPrev rfl
  refine ⟨h.1, fun r s2 hok => ?_⟩
  obtain ⟨hb, hmain, _⟩ := h.2 r s2 hok
  obtain ⟨hn, _, hc⟩ := hmain (by decide)
  exact ⟨hb, hn, hc⟩

/-- C7: `cancelSearch(reset)` on an editor-bound session stashes the current
query into `previousQuery` and clears the query; with `reset = true` it
moves the surface cursor and the anchor back to `startPosition` (with
`reset = false` it leaves both alone); in all cases it returns the
zero-length range at the resulting anchor. -/
theorem C7_cancelSearch_contract (s : ISearch) (reset : Bool)
    (hed : s.hasEditor = true) :
    cancelSearch s reset = JsResult.ok (cancelSearchAux s reset) ∧
    (cancelSearchAux s reset).2.prevNeedle = s.needle ∧
    (cancelSearchAux s reset).2.needle = "" ∧
    (reset = true → (cancelSearchAux s reset).2.ed.cursor = s.startPos ∧
      (cancelSearchAux s reset).2.currentPos = s.startPos) ∧
    (reset = false → (cancelSearchAux s reset).2.ed.cursor = s.ed.cursor ∧
      (cancelSearchAux s reset).2.currentPos = s.currentPos) ∧
    (cancelSearchAux s reset).1 =
      Range.mk (cancelSearchAux s reset).2.currentPos
        (cancelSearchAux s reset).2.currentPos := by
  refine ⟨if_pos hed, ?_⟩
  cases reset <;> simp [cancelSearchAux_eq]

/-- C7 witness: `cancelSearch(true)` on the concrete session `sW` stashes
`"a"`, clears the query, restores cursor and anchor to `startPosition` and
returns the zero-length range there. -/
theorem C7_cancelSearch_contract_witness :
    cancelSearch sW true = JsResult.ok (cancelSearchAux sW true) ∧
    (cancelSearchAux sW true).2.prevNeedle = sW.needle ∧
    (cancelSearchAux sW true).2.needle = "" ∧
    (cancelSearchAux sW true).2.ed.cursor = sW.startPos ∧
    (cancelSearchAux sW true).2.currentPos = sW.startPos ∧
    (cancelSearchAux sW true).1 =
      Range.mk (cancelSearchAux sW true).2.currentPos
        (cancelSearchAux sW true).2.currentPos := by
  obtain ⟨h1, h2, h3, h4, _, h6⟩ := C7_cancelSearch_contract sW true rfl
  obtain ⟨h4a, h4b⟩ := h4 rfl
  exact ⟨h1, h2, h3, h4a, h4b, h6⟩

/-- C8 counterexample: activating while the session `sAct1` is already
active pushes a second copy of the overlay onto the input-handler stack
(spec-modelled LIFO push) and — on `sAct1Moved`, where the cursor has
moved to `(1,2)` — silently overwrites the prior session's
`startPosition`/anchor `(0,0)` with `(1,2)`, with no deactivation of the
previous session — refuting "at most one search session is live: activate
while active first deactivates the previous session (or is a no-op)". -/
theorem C8_reactivation_counterexample :
    sAct1.hasEditor = true ∧
    sAct1.ed.kbdHandlers = 1 ∧
    (activate sAct1 false).ed.kbdHandlers = 2 ∧
    sAct1Moved.startPos = ⟨0, 0⟩ ∧
    (activate sAct1Moved false).startPos = ⟨1, 2⟩ ∧
    (activate sAct1Moved false).currentPos = ⟨1, 2⟩ := by
  decide

/-- C8 amended: `activate` while a session is already active neither
deactivates the previous session nor is a no-op: it pushes one more overlay
copy onto the input-handler stack and overwrites the prior session's
`startPosition` and anchor with the current cursor position. -/
theorem C8_reactivation_overwrites (s : ISearch) (b : Bool)
    (hact : s.hasEditor = true) :
    (activate s b).ed.kbdHandlers = s.ed.kbdHandlers + 1 ∧
    (activate s b).startPos = s.ed.cursor ∧
    (activate s b).currentPos = s.ed.cursor ∧
    (activate s b).hasEditor = true := by
  simp only [activate, message, selectionFix]
  split <;> simp

/-- C8 witness: re-activating the concrete live session `sAct1Moved` yields
two overlay copies and re-captures `startPosition`/anchor at the moved
cursor `(1,2)`. -/
theorem C8_reactivation_overwrites_witness :
    (activate sAct1Moved true).ed.kbdHandlers
      = sAct1Moved.ed.kbdHandlers + 1 ∧
    (activate sAct1Moved true).startPos = sAct1Moved.ed.cursor ∧
    (activate sAct1Moved true).currentPos = sAct1Moved.ed.cursor ∧
    (activate sAct1Moved true).hasEditor = true :=
  C8_reactivation_overwrites sAct1Moved true (by decide)

/-- C9 counterexample: on the surface `edSel`, which reports a non-empty
selection with no mark mode active, `activate` performs no
`clearSelection()` call and the selection stays non-empty — refuting "when
the surface reports a non-empty selection and no mark mode is active, the
controller clears the selection". -/
theorem C9_selection_clear_counterexample :
    edSel.selEmpty = false ∧
    edSel.emacsMark = false ∧
    (activate (ISearch.init edSel) false).ed.clearCalls = 0 ∧
    (activate (ISearch.init edSel) false).ed.selEmpty = false := by
  decide

/-- C9 amended: on `activate`, when the surface reports an *empty* selection
and no mark mode is active, the controller calls `clearSelection()`
(normalizing the host's stale non-empty selection flag); when the surface
reports a non-empty selection, or mark mode is active, no clear happens and
the reported selection is left as it was. -/
theorem C9_selectionFix_semantics (s : ISearch) (b : Bool) :
    (s.ed.selEmpty = true ∧ s.ed.emacsMark = false →
      (activate s b).ed.clearCalls = s.ed.clearCalls + 1 ∧
      (activate s b).ed.selEmpty = true) ∧
    (s.ed.selEmpty = false ∨ s.ed.emacsMark = true →
      (activate s b).ed.clearCalls = s.ed.clearCalls ∧
      (activate s b).ed.selEmpty = s.ed.selEmpty) := by
  constructor
  · rintro ⟨h1, h2⟩
    simp [activate, message, selectionFix, h1, h2]
  · rintro (h | h) <;> simp [activate, message, selectionFix, h]

/-- C9 witness: activating on the empty-selection surface `edW` performs one
`clearSelection()` call; activating on the non-empty-selection surface
`edSel` performs none. -/
theorem C9_selectionFix_semantics_witness :
    ((activate (ISearch.init edW) false).ed.clearCalls
      = (ISearch.init edW).ed.clearCalls + 1 ∧
     (activate (ISearch.init edW) false).ed.selEmpty = true) ∧
    ((activate (ISearch.init edSel) false).ed.clearCalls
      = (ISearch.init edSel).ed.clearCalls ∧
     (activate (ISearch.init edSel) false).ed.selEmpty
      = (ISearch.init edSel).ed.selEmpty) :=
  ⟨(C9_selectionFix_semantics (ISearch.init edW) false).1 (by decide),
   (C9_selectionFix_semantics (ISearch.init edSel) false).2 (by decide)⟩

/-- C10: the empty-query reset path overwrites `previousQuery` with the
query current at that moment — the already-committed empty candidate — so
after `removeChar` on an already-empty query, `previousQuery` is the empty
string (whatever it held before), and a subsequent `next` with
`useCurrentOrPrevSearch` substitutes the empty string and takes the reset
path (for any finder, which is never consulted) instead of repeating the
last non-empty search. -/
theorem C10_prevQuery_empty_reset (find find2 : FindFun) (s : ISearch)
    (bw : Bool) (hed : s.hasEditor = true) (hq : s.needle = "") :
    (removeChar find s).2.prevNeedle = "" ∧
    (removeChar find s).2.needle = "" ∧
    (removeChar find s).2.hasEditor = true ∧
    next find2 { backwards := bw, useCurrentOrPrevSearch := true }
        ((removeChar find s).2) ≠ JsResult.thrown ∧
    (∀ r s2,
      next find2 { backwards := bw, useCurrentOrPrevSearch := true }
          ((removeChar find s).2) = JsResult.ok (r, s2) →
      r = some ⟨s.startPos, s.startPos⟩ ∧ s2.needle = "" ∧
      s2.currentPos = s.startPos ∧ s2.ed.cursor = s.startPos) := by
  have h1 := hfwn_empty find false
    (fun _ needle => if needle.length > 0 then dropLastChar needle else needle)
    s hed (by simp [hq])
  have h2 : removeChar find s =
      (some ⟨s.startPos, s.startPos⟩,
       { s with
         prevNeedle := "", needle := "",
         currentPos := s.startPos,
         ed := { s.ed with
                 cursor := s.startPos,
                 highlight := none,
                 redraws := s.ed.redraws + 1 } }) := by
    rw [show removeChar find s = _ from h1, cancelSearchAux_eq]
    simp [hq]
  have h3 : (removeChar find s).2 =
      { s with
        prevNeedle := "", needle := "",
        currentPos := s.startPos,
        ed := { s.ed with
                cursor := s.startPos,
                highlight := none,
                redraws := s.ed.redraws + 1 } } := by
    rw [h2]
  refine ⟨by rw [h3], by rw [h3], by rw [h3]; exact hed, ?_, ?_⟩
  · rw [h3]; simp [next, hed]
  · intro r s2 h
    have h5 := next_reuse_empty find2 bw ((removeChar find s).2)
      (by rw [h3]; exact hed) (by rw [h3]) (by rw [h3]) r s2 h
    rw [h3] at h5
    exact h5

/-- C10 witness: on the concrete session `sPrev` (empty query, previous
query `"ab"`), one `removeChar` overwrites `previousQuery` with the empty
string, and the following `next` with `useCurrentOrPrevSearch` takes the
reset path for any finder. -/
theorem C10_prevQuery_empty_reset_witness :
    sPrev.prevNeedle = "ab" ∧
    (removeChar findHit sPrev).2.prevNeedle = "" ∧
    (removeChar findHit sPrev).2.needle = "" ∧
    (∀ r s2,
      next findNone { backwards := false, useCurrentOrPrevSearch := true }
          ((removeChar findHit sPrev).2) = JsResult.ok (r, s2) →
      r = some ⟨sPrev.startPos, sPrev.startPos⟩ ∧ s2.needle = "" ∧
      s2.currentPos = sPrev.startPos ∧ s2.ed.cursor = sPrev.startPos) := by
  have h := C10_prevQuery_empty_reset findHit findNone sPrev false rfl rfl
  exact ⟨rfl, h.1, h.2.1, h.2.2.2.2⟩

end IncSearch
